import Mathlib

/-!
Formal model of the CMSIS-RTOS RTX semaphore and delay modules
(`rtx_semaphore.c`, `rtx_delay.c`), as a shallow embedding.

The semaphore control block is embedded as a structure; each service call
becomes a pure function from the pre-state to a status, a post-state and a
list of externally visible effects (scheduler suspend, thread wake-ups,
storage release, post-processing registration).  The wait-list operations
`osRtxThreadListGet` / `osRtxThreadListPut` live in `rtx_thread.c`, which is
not part of this source tree; they are modelled from the specification of the
scheduler collaborator (dequeue the highest-priority, earliest-enqueued
thread; enqueue at the tail of the priority band).  Token fields are 16-bit
unsigned in the C source, so updates are taken modulo 2^16 where the source
performs unchecked arithmetic; tick arithmetic is 32-bit modular.
-/

namespace RTX

/-- Status codes of the CMSIS-RTOS2 API (`osStatus_t`), restricted to the
values the two source files produce. -/
inductive osStatus_t where
  | osOK
  | osErrorTimeout
  | osErrorResource
  | osErrorParameter
  | osErrorNoMemory
  | osErrorISR
deriving DecidableEq, Repr

/-- Object state field: `osRtxObjectInactive` / `osRtxObjectActive`. -/
inductive ObjState where
  | Active
  | Inactive
deriving DecidableEq, Repr

/-- A thread, reduced to the data the semaphore core observes: an identity
and a priority (larger number = higher priority). -/
structure Thread where
  tid : Nat
  priority : Nat
deriving DecidableEq, Repr

/-- The semaphore control block `os_semaphore_t`.  The `id` kind tag and the
`name` pointer are omitted: handle validity (non-null pointer with the
semaphore kind tag) is represented by possession of the structure itself.
`tokens` and `max_tokens` are `uint16_t` in the source. -/
structure os_semaphore_t where
  state : ObjState
  flags : Nat
  thread_list : List Thread
  tokens : Nat
  max_tokens : Nat
deriving DecidableEq, Repr

/-- Externally visible effects of a service call, in program order. -/
inductive Event where
  /-- `osRtxThreadWaitEnter`: the calling thread suspends with this timeout. -/
  | suspend (timeout : Nat)
  /-- `osRtxThreadWaitExit thread ret dispatch`: wake a waiter with a result. -/
  | wake (t : Thread) (result : osStatus_t) (dispatch : Bool)
  /-- The control block's `state` field is set to Inactive. -/
  | setInactive
  /-- `osRtxMemoryPoolFree` / `osRtxMemoryFree`: backing storage released. -/
  | free
  /-- `osRtxPostProcess`: semaphore registered for deferred post-processing. -/
  | postProcessReg
deriving DecidableEq, Repr

/-- `osRtxFlagSystemObject` (rtx_os.h): storage was allocated by the kernel. -/
def osRtxFlagSystemObject : Nat := 1

/-- Modelled from the spec: `osRtxSemaphoreTokenLimit`, the implementation
defined maximum capacity (spec section 3: "an implementation-defined maximum,
e.g. 65535"); the header defining it is not part of this source tree.  The
value 65535 is forced by the 16-bit `tokens` field. -/
def osRtxSemaphoreTokenLimit : Nat := 65535

/-- `SemaphoreTokenDecrement`: atomically decrement `tokens` if non-zero.
Returns 1 on success, 0 on failure, with the updated control block.  The two
build-time strategies of the source (interrupt masking / exclusive
instructions) have the same sequential behaviour, which this captures. -/
def SemaphoreTokenDecrement (s : os_semaphore_t) : Nat × os_semaphore_t :=
  if s.tokens ≠ 0 then (1, { s with tokens := s.tokens - 1 }) else (0, s)

/-- `SemaphoreTokenIncrement`: atomically increment `tokens` if below
`max_tokens`.  Returns 1 on success, 0 on failure.  The `uint16_t` increment
is taken modulo 2^16 (it cannot actually wrap, since the guard bounds it). -/
def SemaphoreTokenIncrement (s : os_semaphore_t) : Nat × os_semaphore_t :=
  if s.tokens < s.max_tokens then
    (1, { s with tokens := (s.tokens + 1) % 65536 })
  else (0, s)

/-- Modelled from the spec: `osRtxThreadListGet` (rtx_thread.c, not part of
this source tree), i.e. the scheduler collaborator's
`dequeue_highest(wait_list) -> thread`: removes and returns the
highest-priority waiter, ties broken by enqueue order (earliest first).  The
wait list is kept in enqueue order here; the scan keeps the earliest thread
among those of maximal priority and preserves the order of the rest. -/
def osRtxThreadListGet : List Thread → Option (Thread × List Thread)
  | [] => none
  | t :: ts =>
    match osRtxThreadListGet ts with
    | none => some (t, [])
    | some (w, rest) =>
      if t.priority < w.priority then some (w, t :: rest) else some (t, ts)

/-- Modelled from the spec: `osRtxThreadListPut` (rtx_thread.c, not part of
this source tree), i.e. the scheduler collaborator's
`enqueue(wait_list, thread)`: the thread enqueues "at the tail of its
priority band".  With the list kept in enqueue order and the dequeue scan
above, appending realizes exactly that discipline. -/
def osRtxThreadListPut (l : List Thread) (t : Thread) : List Thread :=
  l ++ [t]

/-- `osRtxSemaphorePostProcess`: deferred post-ISR processing.  Returns the
updated control block and the wake event, if any. -/
def osRtxSemaphorePostProcess (s : os_semaphore_t) : os_semaphore_t × List Event :=
  if s.state = ObjState.Inactive then (s, [])
  else if s.thread_list = [] then (s, [])
  else
    let d := SemaphoreTokenDecrement s
    if d.1 ≠ 0 then
      match osRtxThreadListGet d.2.thread_list with
      | some (w, rest) =>
        ({ d.2 with thread_list := rest }, [Event.wake w osStatus_t.osOK false])
      | none => (d.2, [])
    else (d.2, [])

/-- `svcRtxSemaphoreNew` with default attributes (`attr == NULL`): parameter
check, then allocation (the allocator is an external collaborator; its
success is the `allocOk` argument), then control-block initialization.  The
`(uint16_t)` casts of the source are the `% 65536` reductions. -/
def svcRtxSemaphoreNew (max_count initial_count : Nat) (allocOk : Bool) :
    Except osStatus_t os_semaphore_t :=
  if max_count = 0 ∨ max_count > osRtxSemaphoreTokenLimit ∨ initial_count > max_count then
    Except.error osStatus_t.osErrorParameter
  else if allocOk then
    Except.ok
      { state := ObjState.Active
        flags := osRtxFlagSystemObject
        thread_list := []
        tokens := initial_count % 65536
        max_tokens := max_count % 65536 }
  else Except.error osStatus_t.osErrorNoMemory

/-- `svcRtxSemaphoreGetCount`: current token count, 0 for an Inactive
object. -/
def svcRtxSemaphoreGetCount (s : os_semaphore_t) : Nat :=
  if s.state = ObjState.Inactive then 0 else s.tokens

/-- `svcRtxSemaphoreAcquire`: thread-context acquire.  `running` is the
calling thread; `waitEnterOk` is the scheduler's answer to
`osRtxThreadWaitEnter` (false when dispatch is not possible, in which case
the thread is not enqueued). -/
def svcRtxSemaphoreAcquire (s : os_semaphore_t) (timeout : Nat) (running : Thread)
    (waitEnterOk : Bool) : osStatus_t × os_semaphore_t × List Event :=
  if s.state = ObjState.Inactive then (osStatus_t.osErrorResource, s, [])
  else
    let d := SemaphoreTokenDecrement s
    if d.1 ≠ 0 then (osStatus_t.osOK, d.2, [])
    else if timeout ≠ 0 then
      if waitEnterOk then
        (osStatus_t.osErrorTimeout,
         { d.2 with thread_list := osRtxThreadListPut d.2.thread_list running },
         [Event.suspend timeout])
      else (osStatus_t.osErrorTimeout, d.2, [])
    else (osStatus_t.osErrorResource, d.2, [])

/-- `svcRtxSemaphoreRelease`: thread-context release.  The source checks
`thread_list != NULL` and then calls `osRtxThreadListGet`; here the two are
fused into one match (`osRtxThreadListGet` returns `none` exactly on the
empty list). -/
def svcRtxSemaphoreRelease (s : os_semaphore_t) : osStatus_t × os_semaphore_t × List Event :=
  if s.state = ObjState.Inactive then (osStatus_t.osErrorResource, s, [])
  else
    match osRtxThreadListGet s.thread_list with
    | some (w, rest) =>
      (osStatus_t.osOK, { s with thread_list := rest },
       [Event.wake w osStatus_t.osOK true])
    | none =>
      let i := SemaphoreTokenIncrement s
      if i.1 ≠ 0 then (osStatus_t.osOK, i.2, [])
      else (osStatus_t.osErrorResource, i.2, [])

/-- Dequeue-and-wake loop of `svcRtxSemaphoreDelete`, with an explicit fuel
argument (the list length bounds the number of iterations). -/
def drainAllF : Nat → List Thread → List Event
  | 0, _ => []
  | n + 1, l =>
    match osRtxThreadListGet l with
    | none => []
    | some (w, rest) =>
      Event.wake w osStatus_t.osErrorResource false :: drainAllF n rest

/-- All waiters woken with `osErrorResource`, in dequeue order. -/
def drainAll (l : List Thread) : List Event :=
  drainAllF l.length l

/-- `svcRtxSemaphoreDelete`: mark Inactive, wake every waiter with
`osErrorResource`, then free the storage if kernel-owned.  The final
`osRtxThreadDispatch(NULL)` call (a bare scheduler yield with no effect on
the semaphore) is not modelled. -/
def svcRtxSemaphoreDelete (s : os_semaphore_t) : osStatus_t × os_semaphore_t × List Event :=
  if s.state = ObjState.Inactive then (osStatus_t.osErrorResource, s, [])
  else
    (osStatus_t.osOK,
     { s with state := ObjState.Inactive, thread_list := [] },
     Event.setInactive :: drainAll s.thread_list ++
       (if s.flags &&& osRtxFlagSystemObject ≠ 0 then [Event.free] else []))

/-- `isrRtxSemaphoreAcquire`: interrupt-context acquire.  A non-zero timeout
is rejected in the parameter check, before the state check. -/
def isrRtxSemaphoreAcquire (s : os_semaphore_t) (timeout : Nat) :
    osStatus_t × os_semaphore_t × List Event :=
  if timeout ≠ 0 then (osStatus_t.osErrorParameter, s, [])
  else if s.state = ObjState.Inactive then (osStatus_t.osErrorResource, s, [])
  else
    let d := SemaphoreTokenDecrement s
    if d.1 ≠ 0 then (osStatus_t.osOK, d.2, [])
    else (osStatus_t.osErrorResource, d.2, [])

/-- `isrRtxSemaphoreRelease`: interrupt-context release.  On a successful
increment the semaphore is registered for deferred post-processing; no
thread is woken inline. -/
def isrRtxSemaphoreRelease (s : os_semaphore_t) : osStatus_t × os_semaphore_t × List Event :=
  if s.state = ObjState.Inactive then (osStatus_t.osErrorResource, s, [])
  else
    let i := SemaphoreTokenIncrement s
    if i.1 ≠ 0 then (osStatus_t.osOK, i.2, [Event.postProcessReg])
    else (osStatus_t.osErrorResource, i.2, [])

/-- `osSemaphoreAcquire`: public dispatcher.  `irq` is
`IsIrqMode() || IsIrqMasked()`. -/
def osSemaphoreAcquire (irq : Bool) (s : os_semaphore_t) (timeout : Nat)
    (running : Thread) (waitEnterOk : Bool) : osStatus_t × os_semaphore_t × List Event :=
  if irq then isrRtxSemaphoreAcquire s timeout
  else svcRtxSemaphoreAcquire s timeout running waitEnterOk

/-- `osSemaphoreRelease`: public dispatcher. -/
def osSemaphoreRelease (irq : Bool) (s : os_semaphore_t) :
    osStatus_t × os_semaphore_t × List Event :=
  if irq then isrRtxSemaphoreRelease s else svcRtxSemaphoreRelease s

/-- `osSemaphoreDelete`: public dispatcher; fails with `osErrorISR` from
interrupt context. -/
def osSemaphoreDelete (irq : Bool) (s : os_semaphore_t) :
    osStatus_t × os_semaphore_t × List Event :=
  if irq then (osStatus_t.osErrorISR, s, []) else svcRtxSemaphoreDelete s

/-- `svcRtxDelay`: relative delay.  With zero ticks nothing happens; with
non-zero ticks the scheduler's `osRtxThreadWaitEnter` is invoked.  The
status is `osOK` either way. -/
def svcRtxDelay (ticks : Nat) : osStatus_t × List Event :=
  (osStatus_t.osOK, if ticks ≠ 0 then [Event.suspend ticks] else [])

/-- Unsigned 32-bit subtraction `a - b` (two's-complement wraparound). -/
def u32sub (a b : Nat) : Nat :=
  (a % 4294967296 + (4294967296 - b % 4294967296)) % 4294967296

/-- `svcRtxDelayUntil`: absolute delay.  `kernelTick` is
`osRtxInfo.kernel.tick`.  The source computes `ticks -= kernel.tick` in
`uint32_t` and rejects exactly the value `0xFFFFFFFF`. -/
def svcRtxDelayUntil (ticks kernelTick : Nat) : osStatus_t × List Event :=
  let t := u32sub ticks kernelTick
  if t = 4294967295 then (osStatus_t.osErrorParameter, [])
  else (osStatus_t.osOK, if t ≠ 0 then [Event.suspend t] else [])

/-- `osDelay`: public dispatcher; fails with `osErrorISR` from interrupt
context. -/
def osDelay (irq : Bool) (ticks : Nat) : osStatus_t × List Event :=
  if irq then (osStatus_t.osErrorISR, []) else svcRtxDelay ticks

/-- `osDelayUntil`: public dispatcher; fails with `osErrorISR` from
interrupt context. -/
def osDelayUntil (irq : Bool) (ticks kernelTick : Nat) : osStatus_t × List Event :=
  if irq then (osStatus_t.osErrorISR, []) else svcRtxDelayUntil ticks kernelTick

/-- The wait-list/token invariant: a non-empty wait list forces a zero token
count. -/
def SemInv (s : os_semaphore_t) : Prop :=
  s.thread_list ≠ [] → s.tokens = 0

/-- Non-blocking operations: `Acquire(timeout = 0)` and `Release`, both in
thread context. -/
inductive Op where
  | acq
  | rel
deriving DecidableEq, Repr

/-- State transition of one non-blocking operation (the status and events
are discarded; only the control block evolves). -/
def applyOp (s : os_semaphore_t) : Op → os_semaphore_t
  | Op.acq => (svcRtxSemaphoreAcquire s 0 { tid := 0, priority := 0 } false).2.1
  | Op.rel => (svcRtxSemaphoreRelease s).2.1

/-- Run a sequence of non-blocking operations. -/
def runOps (s : os_semaphore_t) : List Op → os_semaphore_t
  | [] => s
  | op :: ops => runOps (applyOp s op) ops

/-- A sample thread used in concrete scenarios. -/
def thr1 : Thread := { tid := 1, priority := 5 }

/-- The control block produced by `New(1, 0, default)`. -/
def semFresh : os_semaphore_t :=
  { state := ObjState.Active, flags := 1, thread_list := [], tokens := 0, max_tokens := 1 }

/-- `semFresh` after a successful `Release`. -/
def semOne : os_semaphore_t := { semFresh with tokens := 1 }

/-- `semFresh` after `thr1` blocked on `Acquire(timeout = 10)`. -/
def semWaiting : os_semaphore_t := { semFresh with thread_list := [thr1] }

/-! Helper lemmas about the wait-list dequeue operation. -/

/-- `osRtxThreadListGet` returns `none` exactly on the empty list. -/
theorem listGet_none_iff (l : List RTX.Thread) :
    RTX.osRtxThreadListGet l = none ↔ l = [] := by
  cases l with
  | nil => simp [RTX.osRtxThreadListGet]
  | cons t ts =>
    simp only [RTX.osRtxThreadListGet]
    cases h : RTX.osRtxThreadListGet ts with
    | none => simp
    | some p =>
      obtain ⟨w, rest⟩ := p
      by_cases hp : t.priority < w.priority <;> simp [hp]

/-- Structure of a successful dequeue: the returned thread is an element of
the list, every list element has priority at most its priority, every
earlier element has strictly smaller priority, and the remainder is the list
with exactly that occurrence removed (order preserved). -/
theorem listGet_spec :
    ∀ (l : List RTX.Thread) (w : RTX.Thread) (r : List RTX.Thread),
      RTX.osRtxThreadListGet l = some (w, r) →
      ∃ l₁ l₂, l = l₁ ++ w :: l₂ ∧ r = l₁ ++ l₂ ∧
        (∀ u ∈ l, u.priority ≤ w.priority) ∧ (∀ u ∈ l₁, u.priority < w.priority) := by
  intro l
  induction l with
  | nil => intro w r h; simp [RTX.osRtxThreadListGet] at h
  | cons t ts ih =>
    intro w r h
    simp only [RTX.osRtxThreadListGet] at h
    cases hts : RTX.osRtxThreadListGet ts with
    | none =>
      rw [hts] at h
      have hnil : ts = [] := (listGet_none_iff ts).mp hts
      simp only [Option.some.injEq, Prod.mk.injEq] at h
      obtain ⟨hw, hr⟩ := h
      subst hw; subst hr; subst hnil
      exact ⟨[], [], by simp, by simp, by simp, by simp⟩
    | some p =>
      obtain ⟨w', rest'⟩ := p
      rw [hts] at h
      obtain ⟨l₁, l₂, hL, hR, hmax, hstrict⟩ := ih w' rest' hts
      by_cases hp : t.priority < w'.priority
      · simp only [if_pos hp, Option.some.injEq, Prod.mk.injEq] at h
        obtain ⟨hw, hr⟩ := h
        subst hw; subst hr
        refine ⟨t :: l₁, l₂, by simp [hL], by simp [hR], ?_, ?_⟩
        · intro u hu
          rcases List.mem_cons.mp hu with hu | hu
          · subst hu; exact Nat.le_of_lt hp
          · exact hmax u hu
        · intro u hu
          rcases List.mem_cons.mp hu with hu | hu
          · subst hu; exact hp
          · exact hstrict u hu
      · simp only [if_neg hp, Option.some.injEq, Prod.mk.injEq] at h
        obtain ⟨hw, hr⟩ := h
        subst hw; subst hr
        refine ⟨[], ts, by simp, by simp, ?_, by simp⟩
        intro u hu
        rcases List.mem_cons.mp hu with hu | hu
        · subst hu; exact Nat.le_refl _
        · exact Nat.le_trans (hmax u hu) (Nat.le_of_not_lt hp)

/-- A successful dequeue removes one element: the remainder together with
the dequeued thread is a permutation of the original list. -/
theorem listGet_perm (l : List RTX.Thread) (w : RTX.Thread) (r : List RTX.Thread)
    (h : RTX.osRtxThreadListGet l = some (w, r)) : l.Perm (w :: r) := by
  obtain ⟨l₁, l₂, hL, hR, -, -⟩ := listGet_spec l w r h
  rw [hL, hR]
  exact List.perm_middle

/-- The dequeue-and-wake loop of `Delete`, run with enough fuel, wakes a
permutation of the wait list, each thread with result `osErrorResource`. -/
theorem drainAllF_perm :
    ∀ (n : Nat) (l : List RTX.Thread), l.length ≤ n →
      ∃ l', l.Perm l' ∧
        RTX.drainAllF n l =
          l'.map (fun t => RTX.Event.wake t RTX.osStatus_t.osErrorResource false) := by
  intro n
  induction n with
  | zero =>
    intro l h
    have hl : l = [] := List.length_eq_zero.mp (Nat.le_zero.mp h)
    exact ⟨[], by simp [hl], by simp [hl, RTX.drainAllF]⟩
  | succ n ih =>
    intro l h
    cases heq : RTX.osRtxThreadListGet l with
    | none =>
      have hl : l = [] := (listGet_none_iff l).mp heq
      exact ⟨[], by simp [hl], by simp [hl, RTX.drainAllF, RTX.osRtxThreadListGet]⟩
    | some p =>
      obtain ⟨w, rest⟩ := p
      obtain ⟨l₁, l₂, hL, hR, -, -⟩ := listGet_spec l w rest heq
      have hlen : rest.length + 1 = l.length := by
        rw [hL, hR]; simp; omega
      obtain ⟨l', hperm, hmap⟩ := ih rest (by omega)
      refine ⟨w :: l', ?_, ?_⟩
      · exact (listGet_perm l w rest heq).trans (hperm.cons w)
      · simp [RTX.drainAllF, heq, hmap]

/-- All waiters of the wait list are woken by `drainAll`, each with
`osErrorResource`, in some order forming a permutation of the list. -/
theorem drainAll_perm (l : List RTX.Thread) :
    ∃ l', l.Perm l' ∧
      RTX.drainAll l =
        l'.map (fun t => RTX.Event.wake t RTX.osStatus_t.osErrorResource false) :=
  drainAllF_perm l.length l (Nat.le_refl _)

/-- One non-blocking operation keeps `tokens` within the capacity and never
changes the capacity. -/
theorem applyOp_bounds (s : RTX.os_semaphore_t) (op : RTX.Op)
    (h1 : s.tokens ≤ s.max_tokens) (h2 : s.max_tokens ≤ 65535) :
    (RTX.applyOp s op).tokens ≤ (RTX.applyOp s op).max_tokens ∧
    (RTX.applyOp s op).max_tokens = s.max_tokens := by
  cases op with
  | acq =>
    by_cases hst : s.state = RTX.ObjState.Inactive
    · simpa [RTX.applyOp, RTX.svcRtxSemaphoreAcquire, hst] using h1
    · by_cases hz : s.tokens ≠ 0
      · simp [RTX.applyOp, RTX.svcRtxSemaphoreAcquire, RTX.SemaphoreTokenDecrement, hst, hz]
        omega
      · simpa [RTX.applyOp, RTX.svcRtxSemaphoreAcquire, RTX.SemaphoreTokenDecrement, hst, hz]
          using h1
  | rel =>
    by_cases hst : s.state = RTX.ObjState.Inactive
    · simpa [RTX.applyOp, RTX.svcRtxSemaphoreRelease, hst] using h1
    · cases hp : RTX.osRtxThreadListGet s.thread_list with
      | some p =>
        obtain ⟨w, rest⟩ := p
        simpa [RTX.applyOp, RTX.svcRtxSemaphoreRelease, hst, hp] using h1
      | none =>
        by_cases hlt : s.tokens < s.max_tokens
        · have hmod : s.tokens + 1 < 65536 := by omega
          simp [RTX.applyOp, RTX.svcRtxSemaphoreRelease, RTX.SemaphoreTokenIncrement,
                hst, hp, hlt, Nat.mod_eq_of_lt hmod]
          omega
        · simpa [RTX.applyOp, RTX.svcRtxSemaphoreRelease, RTX.SemaphoreTokenIncrement,
                 hst, hp, hlt] using h1

/-- Any sequence of non-blocking operations keeps `tokens` within the
original capacity, which itself never changes. -/
theorem runOps_bounds :
    ∀ (ops : List RTX.Op) (s : RTX.os_semaphore_t),
      s.tokens ≤ s.max_tokens → s.max_tokens ≤ 65535 →
      (RTX.runOps s ops).tokens ≤ s.max_tokens ∧
      (RTX.runOps s ops).max_tokens = s.max_tokens := by
  intro ops
  induction ops with
  | nil => intro s h1 h2; exact ⟨h1, rfl⟩
  | cons op ops ih =>
    intro s h1 h2
    obtain ⟨hb, he⟩ := RTX.applyOp_bounds s op h1 h2
    obtain ⟨ih1, ih2⟩ := ih (RTX.applyOp s op) hb (by rw [he]; exact h2)
    have hrw : RTX.runOps s (op :: ops) = RTX.runOps (RTX.applyOp s op) ops := rfl
    rw [hrw]
    exact ⟨by rw [← he]; exact ih1, by rw [ih2, he]⟩

end RTX

open RTX

/-! Claim theorems. -/

/-- C3: thread-context Acquire first attempts the atomic token decrement: if
`tokens > 0` it decrements by one and returns Ok; if `tokens == 0` and
`timeout == 0` it fails with `osErrorResource` leaving the state unchanged;
and on the fresh `New(1, 0, default)` object, `Acquire(0)` fails with
`osErrorResource`, then `Release` returns Ok with `tokens = 1`, then
`Acquire(0)` returns Ok with `tokens = 0`. -/
theorem C3_acquire_spec :
    (∀ (s : os_semaphore_t) (timeout : Nat) (running : Thread) (wOk : Bool),
      s.state = ObjState.Active → 0 < s.tokens →
        svcRtxSemaphoreAcquire s timeout running wOk =
          (osStatus_t.osOK, { s with tokens := s.tokens - 1 }, [])) ∧
    (∀ (s : os_semaphore_t) (running : Thread) (wOk : Bool),
      s.state = ObjState.Active → s.tokens = 0 →
        svcRtxSemaphoreAcquire s 0 running wOk = (osStatus_t.osErrorResource, s, [])) ∧
    (svcRtxSemaphoreNew 1 0 true = Except.ok semFresh ∧
      svcRtxSemaphoreAcquire semFresh 0 thr1 false =
        (osStatus_t.osErrorResource, semFresh, []) ∧
      svcRtxSemaphoreRelease semFresh = (osStatus_t.osOK, semOne, []) ∧
      semOne.tokens = 1 ∧
      svcRtxSemaphoreAcquire semOne 0 thr1 false = (osStatus_t.osOK, semFresh, []) ∧
      semFresh.tokens = 0) := by
  refine ⟨?_, ?_, rfl, by decide, by decide, by decide, by decide, by decide⟩
  · intro s timeout running wOk hA htok
    have hne : s.tokens ≠ 0 := Nat.pos_iff_ne_zero.mp htok
    simp [svcRtxSemaphoreAcquire, SemaphoreTokenDecrement, hA, hne]
  · intro s running wOk hA hz
    simp [svcRtxSemaphoreAcquire, SemaphoreTokenDecrement, hA, hz]

/-- Witness for C3 at a concrete input: acquiring from `semOne`
(one token available) decrements to zero and returns Ok. -/
theorem C3_witness :
    svcRtxSemaphoreAcquire semOne 5 thr1 true =
      (osStatus_t.osOK, { semOne with tokens := semOne.tokens - 1 }, []) :=
  C3_acquire_spec.1 semOne 5 thr1 true rfl (by decide)

/-- C5: `New` fails with `osErrorParameter` exactly when `max_count == 0`,
`max_count > TokenLimit` or `initial_count > max_count`; on every valid pair
(with successful allocation) it yields an Active object with
`tokens = initial_count`, on which `GetCount` returns `initial_count`. -/
theorem C5_new_spec :
    (∀ (maxc init : Nat) (allocOk : Bool),
      svcRtxSemaphoreNew maxc init allocOk = Except.error osStatus_t.osErrorParameter ↔
        (maxc = 0 ∨ maxc > osRtxSemaphoreTokenLimit ∨ init > maxc)) ∧
    (∀ maxc init : Nat, 0 < maxc → maxc ≤ osRtxSemaphoreTokenLimit → init ≤ maxc →
      ∃ s, svcRtxSemaphoreNew maxc init true = Except.ok s ∧
        s.state = ObjState.Active ∧ s.tokens = init ∧ s.max_tokens = maxc ∧
        svcRtxSemaphoreGetCount s = init) := by
  constructor
  · intro maxc init allocOk
    by_cases hc : maxc = 0 ∨ maxc > osRtxSemaphoreTokenLimit ∨ init > maxc
    · simp [svcRtxSemaphoreNew, hc]
    · cases allocOk <;> simp [svcRtxSemaphoreNew, hc]
  · intro maxc init h1 h2 h3
    have h2' : maxc ≤ 65535 := h2
    have hc : ¬(maxc = 0 ∨ maxc > osRtxSemaphoreTokenLimit ∨ init > maxc) := by
      intro hc
      rcases hc with hc | hc | hc
      · omega
      · exact absurd hc (Nat.not_lt.mpr h2)
      · omega
    have hi : init % 65536 = init := Nat.mod_eq_of_lt (by omega)
    have hm : maxc % 65536 = maxc := Nat.mod_eq_of_lt (by omega)
    refine ⟨{ state := ObjState.Active, flags := osRtxFlagSystemObject, thread_list := [],
              tokens := init % 65536, max_tokens := maxc % 65536 }, ?_, rfl, hi, hm, ?_⟩
    · simp [svcRtxSemaphoreNew, hc]
    · simp [svcRtxSemaphoreGetCount, hi]

/-- Witness for C5 at concrete inputs: `New(0, 0, _)` is a parameter error,
and `New(3, 2, default)` succeeds with two tokens. -/
theorem C5_witness :
    (svcRtxSemaphoreNew 0 0 true = Except.error osStatus_t.osErrorParameter ↔
      ((0 : Nat) = 0 ∨ (0 : Nat) > osRtxSemaphoreTokenLimit ∨ (0 : Nat) > 0)) ∧
    ∃ s, svcRtxSemaphoreNew 3 2 true = Except.ok s ∧
      s.state = ObjState.Active ∧ s.tokens = 2 ∧ s.max_tokens = 3 ∧
      svcRtxSemaphoreGetCount s = 2 :=
  ⟨C5_new_spec.1 0 0 true, C5_new_spec.2 3 2 (by decide) (by decide) (by decide)⟩

/-- C9: `DelayUntil` computes the relative delay by unsigned 32-bit modular
subtraction, fails with `osErrorParameter` exactly when that difference is
`0xFFFFFFFF` (without suspending), otherwise behaves as `Delay(relative)`;
`DelayUntil(current_tick)` and `Delay(0)` both return Ok with no
suspension. -/
theorem C9_delay_until_spec :
    (∀ a k : Nat, (svcRtxDelayUntil a k).1 = osStatus_t.osErrorParameter ↔
        u32sub a k = 4294967295) ∧
    (∀ a k : Nat, u32sub a k = 4294967295 →
        svcRtxDelayUntil a k = (osStatus_t.osErrorParameter, [])) ∧
    (∀ a k : Nat, u32sub a k ≠ 4294967295 →
        svcRtxDelayUntil a k = svcRtxDelay (u32sub a k)) ∧
    (∀ t : Nat, svcRtxDelayUntil t t = (osStatus_t.osOK, [])) ∧
    svcRtxDelay 0 = (osStatus_t.osOK, []) := by
  have hzero : ∀ t : Nat, u32sub t t = 0 := by
    intro t
    unfold u32sub
    have h1 : t % 4294967296 < 4294967296 := Nat.mod_lt _ (by omega)
    omega
  refine ⟨?_, ?_, ?_, ?_, by decide⟩
  · intro a k
    by_cases h : u32sub a k = 4294967295 <;> simp [svcRtxDelayUntil, h]
  · intro a k h
    simp [svcRtxDelayUntil, h]
  · intro a k h
    simp [svcRtxDelayUntil, svcRtxDelay, h]
  · intro t
    simp [svcRtxDelayUntil, hzero t]

/-- Witness for C9 at concrete inputs: a target one tick in the past fails,
a target five ticks ahead suspends for five ticks. -/
theorem C9_witness :
    svcRtxDelayUntil 4 5 = (osStatus_t.osErrorParameter, []) ∧
    svcRtxDelayUntil 7 2 = svcRtxDelay (u32sub 7 2) ∧
    svcRtxDelayUntil 5 5 = (osStatus_t.osOK, []) :=
  ⟨C9_delay_until_spec.2.1 4 5 (by decide), C9_delay_until_spec.2.2.1 7 2 (by decide),
   C9_delay_until_spec.2.2.2.1 5⟩

/-- C10: `PostProcess` on an Inactive semaphore returns with no state change
and no wake; on any semaphore with `tokens == 0` it also changes nothing;
whenever it produces any effect, the atomic decrement succeeded
(`tokens > 0`), the wait list was non-empty, and the effect is exactly one
Ok wake of the dequeued head waiter with the tokens counter decremented. -/
theorem C10_postprocess_frame :
    (∀ s : os_semaphore_t, s.state = ObjState.Inactive →
        osRtxSemaphorePostProcess s = (s, [])) ∧
    (∀ s : os_semaphore_t, s.tokens = 0 → osRtxSemaphorePostProcess s = (s, [])) ∧
    (∀ (s s' : os_semaphore_t) (evs : List Event),
        osRtxSemaphorePostProcess s = (s', evs) → evs ≠ [] →
        s.state = ObjState.Active ∧ s.thread_list ≠ [] ∧ 0 < s.tokens ∧
        ∃ w rest, osRtxThreadListGet s.thread_list = some (w, rest) ∧
          evs = [Event.wake w osStatus_t.osOK false] ∧
          s' = { s with tokens := s.tokens - 1, thread_list := rest }) := by
  refine ⟨?_, ?_, ?_⟩
  · intro s h
    simp [osRtxSemaphorePostProcess, h]
  · intro s hz
    simp [osRtxSemaphorePostProcess, SemaphoreTokenDecrement, hz]
  · intro s s' evs h hne
    by_cases hst : s.state = ObjState.Inactive
    · simp [osRtxSemaphorePostProcess, hst] at h
      exact absurd h.2 hne
    by_cases hl : s.thread_list = []
    · simp [osRtxSemaphorePostProcess, hst, hl] at h
      exact absurd h.2 hne
    by_cases hz : s.tokens = 0
    · simp [osRtxSemaphorePostProcess, SemaphoreTokenDecrement, hst, hl, hz] at h
      exact absurd h.2 hne
    have hA : s.state = ObjState.Active := by
      cases h' : s.state with
      | Active => rfl
      | Inactive => exact absurd h' hst
    obtain ⟨p, hp⟩ : ∃ p, osRtxThreadListGet s.thread_list = some p := by
      cases hg : osRtxThreadListGet s.thread_list with
      | none => exact absurd ((RTX.listGet_none_iff _).mp hg) hl
      | some p => exact ⟨p, rfl⟩
    obtain ⟨w, rest⟩ := p
    simp [osRtxSemaphorePostProcess, SemaphoreTokenDecrement, hst, hl, hz, hp] at h
    exact ⟨hA, hl, Nat.pos_of_ne_zero hz, w, rest, hp, h.2.symm, h.1.symm⟩

/-- Witness for C10 at a concrete input: on the fresh semaphore
(zero tokens) post-processing changes nothing. -/
theorem C10_witness : osRtxSemaphorePostProcess semFresh = (semFresh, []) :=
  C10_postprocess_frame.2.1 semFresh rfl

/-- C8: in interrupt context (or with interrupts masked) Acquire with a
non-zero timeout fails with `osErrorParameter`; Delete, Delay and DelayUntil
fail with `osErrorISR`; Acquire with zero timeout and Release run the
reduced interrupt-context variants directly, whose effect lists never
contain a suspension. -/
theorem C8_isr_dispatch :
    (∀ (s : os_semaphore_t) (timeout : Nat) (running : Thread) (wOk : Bool),
        timeout ≠ 0 →
        osSemaphoreAcquire true s timeout running wOk =
          (osStatus_t.osErrorParameter, s, [])) ∧
    (∀ s : os_semaphore_t, osSemaphoreDelete true s = (osStatus_t.osErrorISR, s, [])) ∧
    (∀ ticks : Nat, osDelay true ticks = (osStatus_t.osErrorISR, [])) ∧
    (∀ ticks kernelTick : Nat,
        osDelayUntil true ticks kernelTick = (osStatus_t.osErrorISR, [])) ∧
    (∀ (s : os_semaphore_t) (running : Thread) (wOk : Bool),
        osSemaphoreAcquire true s 0 running wOk = isrRtxSemaphoreAcquire s 0) ∧
    (∀ s : os_semaphore_t, osSemaphoreRelease true s = isrRtxSemaphoreRelease s) ∧
    (∀ (s : os_semaphore_t) (timeout t : Nat),
        Event.suspend t ∉ (isrRtxSemaphoreAcquire s timeout).2.2) ∧
    (∀ (s : os_semaphore_t) (t : Nat),
        Event.suspend t ∉ (isrRtxSemaphoreRelease s).2.2) := by
  refine ⟨?_, ?_, ?_, ?_, ?_, ?_, ?_, ?_⟩
  · intro s timeout running wOk h
    simp [osSemaphoreAcquire, isrRtxSemaphoreAcquire, h]
  · intro s
    simp [osSemaphoreDelete]
  · intro ticks
    simp [osDelay]
  · intro ticks kernelTick
    simp [osDelayUntil]
  · intro s running wOk
    simp [osSemaphoreAcquire]
  · intro s
    simp [osSemaphoreRelease]
  · intro s timeout t
    by_cases h1 : timeout ≠ 0
    · simp [isrRtxSemaphoreAcquire, h1]
    · by_cases h2 : s.state = ObjState.Inactive
      · simp [isrRtxSemaphoreAcquire, h1, h2]
      · by_cases h3 : s.tokens ≠ 0 <;>
          simp [isrRtxSemaphoreAcquire, SemaphoreTokenDecrement, h1, h2, h3]
  · intro s t
    by_cases h2 : s.state = ObjState.Inactive
    · simp [isrRtxSemaphoreRelease, h2]
    · by_cases h3 : s.tokens < s.max_tokens <;>
        simp [isrRtxSemaphoreRelease, SemaphoreTokenIncrement, h2, h3]

/-- Witness for C8 at a concrete input: an interrupt-context Acquire with a
non-zero timeout on the fresh semaphore is a parameter error. -/
theorem C8_witness :
    osSemaphoreAcquire true semFresh 5 thr1 true = (osStatus_t.osErrorParameter, semFresh, []) :=
  C8_isr_dispatch.1 semFresh 5 thr1 true (by decide)

/-- C2: thread-context Release on an Active semaphore with a non-empty wait
list removes the highest-priority waiter (ties broken first-enqueued-first),
wakes it with Ok, and leaves the tokens counter unchanged; with an empty
wait list it increments tokens and returns Ok when `tokens < max_tokens`,
and fails with `osErrorResource` leaving tokens unchanged when
`tokens == max_tokens`. -/
theorem C2_release_spec :
    (∀ s : os_semaphore_t, s.state = ObjState.Active → s.thread_list ≠ [] →
      ∃ w l₁ l₂,
        s.thread_list = l₁ ++ w :: l₂ ∧
        (∀ u ∈ s.thread_list, u.priority ≤ w.priority) ∧
        (∀ u ∈ l₁, u.priority < w.priority) ∧
        svcRtxSemaphoreRelease s =
          (osStatus_t.osOK, { s with thread_list := l₁ ++ l₂ },
           [Event.wake w osStatus_t.osOK true])) ∧
    (∀ s : os_semaphore_t, s.state = ObjState.Active → s.thread_list = [] →
        s.max_tokens ≤ osRtxSemaphoreTokenLimit → s.tokens < s.max_tokens →
        svcRtxSemaphoreRelease s =
          (osStatus_t.osOK, { s with tokens := s.tokens + 1 }, [])) ∧
    (∀ s : os_semaphore_t, s.state = ObjState.Active → s.thread_list = [] →
        s.tokens = s.max_tokens →
        svcRtxSemaphoreRelease s = (osStatus_t.osErrorResource, s, [])) := by
  refine ⟨?_, ?_, ?_⟩
  · intro s hA hne
    obtain ⟨p, hp⟩ : ∃ p, osRtxThreadListGet s.thread_list = some p := by
      cases hg : osRtxThreadListGet s.thread_list with
      | none => exact absurd ((RTX.listGet_none_iff _).mp hg) hne
      | some p => exact ⟨p, rfl⟩
    obtain ⟨w, rest⟩ := p
    obtain ⟨l₁, l₂, hL, hR, hmax, hstrict⟩ := RTX.listGet_spec _ _ _ hp
    refine ⟨w, l₁, l₂, hL, hmax, hstrict, ?_⟩
    rw [← hR]
    simp [svcRtxSemaphoreRelease, hA, hp]
  · intro s hA hl hlim hlt
    have hlim' : s.max_tokens ≤ 65535 := hlim
    have hmod : s.tokens + 1 < 65536 := by omega
    simp [svcRtxSemaphoreRelease, SemaphoreTokenIncrement, hA, hl, hlt,
          osRtxThreadListGet, Nat.mod_eq_of_lt hmod]
  · intro s hA hl heq
    have h : ¬ s.tokens < s.max_tokens := by omega
    simp [svcRtxSemaphoreRelease, SemaphoreTokenIncrement, hA, hl, h,
          osRtxThreadListGet]

/-- Witness for C2 at a concrete input: releasing `semWaiting` wakes its
single waiter `thr1` with Ok. -/
theorem C2_witness :
    ∃ w l₁ l₂,
      semWaiting.thread_list = l₁ ++ w :: l₂ ∧
      (∀ u ∈ semWaiting.thread_list, u.priority ≤ w.priority) ∧
      (∀ u ∈ l₁, u.priority < w.priority) ∧
      svcRtxSemaphoreRelease semWaiting =
        (osStatus_t.osOK, { semWaiting with thread_list := l₁ ++ l₂ },
         [Event.wake w osStatus_t.osOK true]) :=
  C2_release_spec.1 semWaiting rfl (by decide)

/-- C6: starting from any successfully created semaphore of capacity
`max_count`, every finite sequence of non-blocking Acquire (timeout 0) and
Release calls keeps `tokens` within `[0, max_count]` (the lower bound is
inherent in the natural-number embedding); and the atomic decrement fires
exactly when `tokens > 0`, the atomic increment exactly when
`tokens < max_tokens`, each failing with the state unchanged. -/
theorem C6_tokens_bounded :
    (∀ (maxc init : Nat) (s₀ : os_semaphore_t),
      svcRtxSemaphoreNew maxc init true = Except.ok s₀ →
      ∀ ops : List Op, (runOps s₀ ops).tokens ≤ maxc) ∧
    (∀ s : os_semaphore_t,
      ((SemaphoreTokenDecrement s).1 = 1 ↔ 0 < s.tokens) ∧
      (0 < s.tokens → (SemaphoreTokenDecrement s).2.tokens = s.tokens - 1) ∧
      ((SemaphoreTokenIncrement s).1 = 1 ↔ s.tokens < s.max_tokens) ∧
      (s.tokens < s.max_tokens → s.max_tokens ≤ 65535 →
        (SemaphoreTokenIncrement s).2.tokens = s.tokens + 1) ∧
      ((SemaphoreTokenDecrement s).1 = 0 → (SemaphoreTokenDecrement s).2 = s) ∧
      ((SemaphoreTokenIncrement s).1 = 0 → (SemaphoreTokenIncrement s).2 = s)) := by
  constructor
  · intro maxc init s₀ hnew ops
    by_cases hc : maxc = 0 ∨ maxc > osRtxSemaphoreTokenLimit ∨ init > maxc
    · simp [svcRtxSemaphoreNew, hc] at hnew
    · push_neg at hc
      obtain ⟨hc1, hc2, hc3⟩ := hc
      have hc2' : maxc ≤ 65535 := hc2
      have hi : init % 65536 = init := Nat.mod_eq_of_lt (by omega)
      have hm : maxc % 65536 = maxc := Nat.mod_eq_of_lt (by omega)
      have hc' : ¬(maxc = 0 ∨ maxc > osRtxSemaphoreTokenLimit ∨ init > maxc) := by
        push_neg
        exact ⟨hc1, hc2, hc3⟩
      simp [svcRtxSemaphoreNew, hc'] at hnew
      obtain ⟨hb, he⟩ := RTX.runOps_bounds ops s₀
        (by rw [← hnew]; simp [hi, hm]; omega) (by rw [← hnew]; simp [hm]; omega)
      have hmx : s₀.max_tokens = maxc := by rw [← hnew]; simp [hm]
      rw [hmx] at hb
      exact hb
  · intro s
    refine ⟨?_, ?_, ?_, ?_, ?_, ?_⟩
    · by_cases h : s.tokens ≠ 0 <;> simp [SemaphoreTokenDecrement, h] <;> omega
    · intro h
      have h' : s.tokens ≠ 0 := by omega
      simp [SemaphoreTokenDecrement, h']
    · by_cases h : s.tokens < s.max_tokens <;> simp [SemaphoreTokenIncrement, h]
    · intro h hlim
      simp [SemaphoreTokenIncrement, h, Nat.mod_eq_of_lt (show s.tokens + 1 < 65536 by omega)]
    · intro h
      by_cases h' : s.tokens ≠ 0
      · simp [SemaphoreTokenDecrement, h'] at h
      · simp [SemaphoreTokenDecrement, h']
    · intro h
      by_cases h' : s.tokens < s.max_tokens
      · simp [SemaphoreTokenIncrement, h'] at h
      · simp [SemaphoreTokenIncrement, h']

/-- Witness for C6 at a concrete input: two releases then an acquire on the
fresh capacity-1 semaphore keep the count at most 1. -/
theorem C6_witness :
    (runOps semFresh [Op.rel, Op.rel, Op.acq]).tokens ≤ 1 :=
  C6_tokens_bounded.1 1 0 semFresh rfl [Op.rel, Op.rel, Op.acq]

/-- C7: Delete on an Active semaphore sets the state to Inactive first, then
wakes every waiter with `osErrorResource` until the wait list is empty, and
frees the backing storage last, exactly when the kernel-owned flag is set;
Delete on an already Inactive object fails with `osErrorResource` with no
side effects. -/
theorem C7_delete_spec :
    (∀ s : os_semaphore_t, s.state = ObjState.Active →
      ∃ woken, s.thread_list.Perm woken ∧
        svcRtxSemaphoreDelete s =
          (osStatus_t.osOK,
           { s with state := ObjState.Inactive, thread_list := [] },
           Event.setInactive ::
             woken.map (fun t => Event.wake t osStatus_t.osErrorResource false) ++
             (if s.flags &&& osRtxFlagSystemObject ≠ 0 then [Event.free] else []))) ∧
    (∀ s : os_semaphore_t, s.state = ObjState.Inactive →
      svcRtxSemaphoreDelete s = (osStatus_t.osErrorResource, s, [])) := by
  constructor
  · intro s hA
    obtain ⟨l', hperm, hmap⟩ := RTX.drainAll_perm s.thread_list
    exact ⟨l', hperm, by simp [svcRtxSemaphoreDelete, hA, hmap]⟩
  · intro s h
    simp [svcRtxSemaphoreDelete, h]

/-- Witness for C7 at a concrete input: deleting `semWaiting` marks it
Inactive, wakes `thr1` with `osErrorResource`, then frees the kernel-owned
storage. -/
theorem C7_witness :
    ∃ woken, semWaiting.thread_list.Perm woken ∧
      svcRtxSemaphoreDelete semWaiting =
        (osStatus_t.osOK,
         { semWaiting with state := ObjState.Inactive, thread_list := [] },
         Event.setInactive ::
           woken.map (fun t => Event.wake t osStatus_t.osErrorResource false) ++
           (if semWaiting.flags &&& osRtxFlagSystemObject ≠ 0 then [Event.free] else [])) :=
  C7_delete_spec.1 semWaiting rfl

/-- C1 counterexample: a reachable state violating the claimed invariant.
From `New(1, 0, default)`, a thread blocks on `Acquire(timeout = 10)`
(wait list `[thr1]`, tokens 0); an interrupt-context Release then returns Ok
and increments the counter, yielding a reachable state whose wait list is
non-empty while `tokens = 1 ≠ 0` — so interrupt-context Release does not
preserve the invariant. -/
theorem C1_counterexample :
    svcRtxSemaphoreNew 1 0 true = Except.ok semFresh ∧
    svcRtxSemaphoreAcquire semFresh 10 thr1 true =
      (osStatus_t.osErrorTimeout, semWaiting, [Event.suspend 10]) ∧
    isrRtxSemaphoreRelease semWaiting =
      (osStatus_t.osOK, { semWaiting with tokens := 1 }, [Event.postProcessReg]) ∧
    { semWaiting with tokens := 1 }.thread_list ≠ [] ∧
    { semWaiting with tokens := 1 }.tokens ≠ 0 :=
  ⟨rfl, by decide, by decide, by decide, by decide⟩

/-- C1 (amended): the invariant "non-empty wait list implies zero tokens" is
preserved by thread-context Acquire and Release, interrupt-context Acquire,
and PostProcess; interrupt-context Release is excluded, since it increments
the counter even with waiters pending (transiently, until PostProcess
consumes the token). -/
theorem C1_invariant_preserved :
    ∀ (s : os_semaphore_t) (timeout : Nat) (running : Thread) (wOk : Bool),
      SemInv s →
      SemInv (svcRtxSemaphoreAcquire s timeout running wOk).2.1 ∧
      SemInv (svcRtxSemaphoreRelease s).2.1 ∧
      SemInv (isrRtxSemaphoreAcquire s timeout).2.1 ∧
      SemInv (osRtxSemaphorePostProcess s).1 := by
  intro s timeout running wOk hinv
  refine ⟨?_, ?_, ?_, ?_⟩
  · by_cases hst : s.state = ObjState.Inactive
    · simpa [svcRtxSemaphoreAcquire, hst] using hinv
    · by_cases hz : s.tokens = 0
      · by_cases ht : timeout ≠ 0
        · by_cases hw : wOk
          · simp [svcRtxSemaphoreAcquire, SemaphoreTokenDecrement, SemInv,
                  osRtxThreadListPut, hst, hz, ht, hw]
          · simp [svcRtxSemaphoreAcquire, SemaphoreTokenDecrement, SemInv,
                  hst, hz, ht, hw]
        · simp [svcRtxSemaphoreAcquire, SemaphoreTokenDecrement, SemInv, hst, hz, ht]
      · have hres : svcRtxSemaphoreAcquire s timeout running wOk =
            (osStatus_t.osOK, { s with tokens := s.tokens - 1 }, []) := by
          simp [svcRtxSemaphoreAcquire, SemaphoreTokenDecrement, hst, hz]
        rw [hres]
        intro hne
        exact absurd (hinv hne) hz
  · by_cases hst : s.state = ObjState.Inactive
    · simpa [svcRtxSemaphoreRelease, hst] using hinv
    · cases hp : osRtxThreadListGet s.thread_list with
      | some p =>
        obtain ⟨w, rest⟩ := p
        have hne : s.thread_list ≠ [] := by
          intro h
          rw [h] at hp
          simp [osRtxThreadListGet] at hp
        have hz : s.tokens = 0 := hinv hne
        simp [svcRtxSemaphoreRelease, SemInv, hst, hp, hz]
      | none =>
        have hl : s.thread_list = [] := (RTX.listGet_none_iff _).mp hp
        by_cases hlt : s.tokens < s.max_tokens
        · simp [svcRtxSemaphoreRelease, SemaphoreTokenIncrement, SemInv,
                osRtxThreadListGet, hst, hlt, hl]
        · simp [svcRtxSemaphoreRelease, SemaphoreTokenIncrement, SemInv,
                osRtxThreadListGet, hst, hlt, hl]
  · by_cases ht : timeout ≠ 0
    · simpa [isrRtxSemaphoreAcquire, ht] using hinv
    · by_cases hst : s.state = ObjState.Inactive
      · simpa [isrRtxSemaphoreAcquire, ht, hst] using hinv
      · by_cases hz : s.tokens = 0
        · simpa [isrRtxSemaphoreAcquire, SemaphoreTokenDecrement, ht, hst, hz] using hinv
        · have hres : isrRtxSemaphoreAcquire s timeout =
              (osStatus_t.osOK, { s with tokens := s.tokens - 1 }, []) := by
            simp [isrRtxSemaphoreAcquire, SemaphoreTokenDecrement, ht, hst, hz]
          rw [hres]
          intro hne
          exact absurd (hinv hne) hz
  · by_cases hst : s.state = ObjState.Inactive
    · simpa [osRtxSemaphorePostProcess, hst] using hinv
    · by_cases hl : s.thread_list = []
      · simpa [osRtxSemaphorePostProcess, hst, hl] using hinv
      · have hz : s.tokens = 0 := hinv hl
        simpa [osRtxSemaphorePostProcess, SemaphoreTokenDecrement, hst, hl, hz] using hinv

/-- Witness for C1 (amended) at a concrete input: the four preserving
operations applied to `semWaiting` (one waiter, zero tokens). -/
theorem C1_witness :
    SemInv (svcRtxSemaphoreAcquire semWaiting 0 thr1 false).2.1 ∧
    SemInv (svcRtxSemaphoreRelease semWaiting).2.1 ∧
    SemInv (isrRtxSemaphoreAcquire semWaiting 0).2.1 ∧
    SemInv (osRtxSemaphorePostProcess semWaiting).1 :=
  C1_invariant_preserved semWaiting 0 thr1 false (fun _ => rfl)

/-- C4 counterexample: on an Active state with a non-empty wait list (and,
per the invariant, zero tokens), `PostProcess` wakes nobody and changes
nothing — its token decrement fails — while the thread-context Release on
the same state wakes the head waiter; so `PostProcess` does not produce the
same state transition as Release on that state. -/
theorem C4_counterexample :
    semWaiting.state = ObjState.Active ∧
    semWaiting.thread_list ≠ [] ∧
    osRtxSemaphorePostProcess semWaiting = (semWaiting, []) ∧
    svcRtxSemaphoreRelease semWaiting =
      (osStatus_t.osOK, semFresh, [Event.wake thr1 osStatus_t.osOK true]) :=
  ⟨rfl, by decide, by decide, by decide⟩

/-- C4 (amended): `PostProcess` pops and wakes the head waiter (the same
waiter, with the same Ok result, chosen by the same dequeue) only after a
successful token decrement; it is the composition of interrupt-context
Release followed by `PostProcess`, started from an Active state with a
non-empty wait list and zero tokens, that produces exactly the thread-context
Release transition: same waiter woken with Ok, same final tokens value, same
final wait-list contents. -/
theorem C4_isr_release_postprocess_equiv :
    ∀ s : os_semaphore_t, s.state = ObjState.Active → s.thread_list ≠ [] →
      s.tokens = 0 → 0 < s.max_tokens →
      ∃ w rest,
        osRtxThreadListGet s.thread_list = some (w, rest) ∧
        isrRtxSemaphoreRelease s =
          (osStatus_t.osOK, { s with tokens := 1 }, [Event.postProcessReg]) ∧
        osRtxSemaphorePostProcess { s with tokens := 1 } =
          ({ s with thread_list := rest }, [Event.wake w osStatus_t.osOK false]) ∧
        svcRtxSemaphoreRelease s =
          (osStatus_t.osOK, { s with thread_list := rest },
           [Event.wake w osStatus_t.osOK true]) := by
  intro s hA hne hz hmax
  obtain ⟨p, hp⟩ : ∃ p, osRtxThreadListGet s.thread_list = some p := by
    cases hg : osRtxThreadListGet s.thread_list with
    | none => exact absurd ((RTX.listGet_none_iff _).mp hg) hne
    | some p => exact ⟨p, rfl⟩
  obtain ⟨w, rest⟩ := p
  obtain ⟨st, fl, tl, tk, mx⟩ := s
  simp only at hA hne hz hmax hp
  subst hA
  subst hz
  refine ⟨w, rest, hp, ?_, ?_, ?_⟩
  · simp [isrRtxSemaphoreRelease, SemaphoreTokenIncrement, hmax]
  · simp [osRtxSemaphorePostProcess, SemaphoreTokenDecrement, hne, hp]
  · simp [svcRtxSemaphoreRelease, hp]

/-- Witness for C4 (amended) at a concrete input: the interrupt-release /
post-process composition on `semWaiting` agrees with thread-context
Release. -/
theorem C4_witness :
    ∃ w rest,
      osRtxThreadListGet semWaiting.thread_list = some (w, rest) ∧
      isrRtxSemaphoreRelease semWaiting =
        (osStatus_t.osOK, { semWaiting with tokens := 1 }, [Event.postProcessReg]) ∧
      osRtxSemaphorePostProcess { semWaiting with tokens := 1 } =
        ({ semWaiting with thread_list := rest }, [Event.wake w osStatus_t.osOK false]) ∧
      svcRtxSemaphoreRelease semWaiting =
        (osStatus_t.osOK, { semWaiting with thread_list := rest },
         [Event.wake w osStatus_t.osOK true]) :=
  C4_isr_release_postprocess_equiv semWaiting rfl (by decide) rfl (by decide)
